import Mathlib

/-!
Shallow embedding of the fin-news-site core pipeline
(normalization, classification, deduplication, importance scoring,
query engine in `assets/app.js`, and the store merge of the ingestion
scripts), together with theorems checking the specification claims.

Conventions of the embedding:
* JS timestamps are integer epoch milliseconds (`Int`); an invalid date is
  `none`.
* Loosely-typed raw-record fields that the code inspects for truthiness or
  stringifies are modelled by `JSVal`, covering the JSON primitive values
  (`undefined` models an absent field).
* `Array.prototype.sort` with a comparator is stable and produces a
  sequence sorted w.r.t. the comparator; it is modelled by the stable
  `List.mergeSort` with the boolean relation `cmp a b ≤ 0`.
* Regular-expression tests in the code are alternations of literal
  substrings; they are modelled as "some keyword of the list is an infix of
  the text". `String.prototype.toLowerCase` is modelled by `Char.toLower`
  mapping (the keywords involved are ASCII or Japanese, where the two
  notions agree).
-/

/-- JS primitive value, as found in a loosely-typed raw record field.
`undef` models an absent field (property access yields `undefined`). -/
inductive JSVal where
  | undef
  | null
  | bool (b : Bool)
  | num (n : Int)
  | str (s : String)
deriving DecidableEq, Repr

namespace JSVal

/-- JS truthiness: `undefined`, `null`, `false`, `0` and the empty string are
falsy, all other modelled values are truthy. -/
def truthy : JSVal → Bool
  | undef => false
  | null => false
  | bool b => b
  | num n => n != 0
  | str s => s != ""

end JSVal

/-- Decimal digit character of `n % 10`, used by the positional printer. -/
def digitChar10 (n : Nat) : Char := Char.ofNat (48 + n % 10)

/-- Fueled positional printer (`fuel ≥ number of digits` always holds at
the call below, since each step divides by 10). -/
def natDigitsGo (fuel n : Nat) : List Char :=
  match fuel with
  | 0 => []
  | fuel + 1 =>
    if n < 10 then [digitChar10 n]
    else natDigitsGo fuel (n / 10) ++ [digitChar10 n]

/-- Decimal digits of `n`, most significant first. -/
def natDigitsL (n : Nat) : List Char := natDigitsGo (n + 1) n

/-- Decimal representation of a natural number. -/
def natStr (n : Nat) : String := ⟨natDigitsL n⟩

/-- Decimal representation of an integer, as printed by JS `String(n)` for an
integral number. -/
def intStr (n : Int) : String :=
  if n < 0 then "-" ++ natStr n.natAbs else natStr n.natAbs

/-- JS `String(v)` / `.toString()` on a primitive value. -/
def JSVal.jsToString : JSVal → String
  | undef => "undefined"
  | null => "null"
  | bool b => if b then "true" else "false"
  | num n => intStr n
  | str s => s

/-- JS whitespace class (`\s`, and the set trimmed by `String.trim`),
modelled by `Char.isWhitespace`. -/
def jsWs (c : Char) : Bool := c.isWhitespace

/-- List-level model of `String.prototype.trim`: drop leading and trailing
whitespace. -/
def trimL (l : List Char) : List Char :=
  ((l.dropWhile jsWs).reverse.dropWhile jsWs).reverse

/-- `s.trim()`. -/
def jsTrim (s : String) : String := ⟨trimL s.data⟩

/-- List-level model of `u.replace(/[#?].*$/, '')`: keep the prefix before
the first `?` or `#`. -/
def stripQFL : List Char → List Char
  | [] => []
  | c :: cs => if c = '?' ∨ c = '#' then [] else c :: stripQFL cs

/-- URL with trailing query string / fragment removed. -/
def stripQF (s : String) : String := ⟨stripQFL s.data⟩

/-- Helper of the whitespace-collapsing replace: `prevWs` records whether
the previous character belonged to a whitespace run already replaced. -/
def squashGo (prevWs : Bool) : List Char → List Char
  | [] => []
  | c :: cs =>
    if jsWs c then
      if prevWs then squashGo true cs else ' ' :: squashGo true cs
    else c :: squashGo false cs

/-- List-level model of `.replace(/\s+/g, ' ')`: collapse each maximal run
of whitespace into a single space. -/
def squashWsL (l : List Char) : List Char := squashGo false l

/-- `s.replace(/\s+/g, ' ')`. -/
def squashWs (s : String) : String := ⟨squashWsL s.data⟩

/-- `s.toLowerCase()`, modelled by ASCII lowercasing of each character. -/
def jsLower (s : String) : String := ⟨s.data.map Char.toLower⟩

/-- Boolean infix test on character lists (`pat` occurs inside `s`). -/
def infixL (pat : List Char) : List Char → Bool
  | [] => pat.isEmpty
  | c :: t => pat.isPrefixOf (c :: t) || infixL pat t

/-- `s.includes(pat)`. -/
def strIncludes (s pat : String) : Bool := infixL pat.data s.data

/-- Model of `/k1|k2|.../.test(t)` for a regex that is an alternation of
literal keywords: some keyword occurs in `t`. -/
def kwTest (kws : List String) (t : String) : Bool :=
  kws.any (fun k => strIncludes t k)

/-- Canonical Item, as returned by `normalizeItem` in `assets/app.js`. -/
structure Item where
  id : String
  category : String
  title : String
  summary : String
  source : String
  url : String
  publishedAt : Option Int
  tags : List String
  locale : String
  verified : Bool
  thumbnail : String
  type : String
  tickers : List String
  issuer : String
deriving DecidableEq, Repr

/-- Loosely-typed raw record, restricted to the fields `normalizeItem`
reads.  Fields the code inspects for truthiness or stringifies are `JSVal`;
`tags` and `tickers` are an optional array of strings (the shape the
producers emit; `Array.isArray` failure is `none`); `publishedAtParsed`
carries the result of `parseDate(x.publishedAt)` (epoch milliseconds, or
`none` for an invalid date — engine-defined date-string parsing is modelled
by its result). -/
structure RawItem where
  category : JSVal
  title : JSVal
  summary : JSVal
  source : JSVal
  url : String
  publishedAtParsed : Option Int
  tags : Option (List String)
  locale : Option String
  verified : JSVal
  thumbnail : Option String
  type : JSVal
  tickers : Option (List String)
  id : Option String
deriving DecidableEq, Repr

/-- Keywords of the `earnings` classification rule. -/
def earningsKws : List String :=
  ["決算", "業績", "通期", "四半期", "eps", "売上", "ガイダンス"]

/-- Keywords of the `disclosure` classification rule. -/
def disclosureKws : List String :=
  ["開示", "適時開示", "有報", "短信", "ir"]

/-- Keywords of the `fx` classification rule. -/
def fxKws : List String :=
  ["為替", "ドル円", "usd/jpy", "fx"]

/-- Keywords of the `macro` classification rule. -/
def macroKws : List String :=
  ["cpi", "pmi", "gdp", "景気", "マクロ", "失業", "物価", "政策", "日銀", "fomc"]

/-- Keywords of the `equityIndex` classification rule. -/
def equityIndexKws : List String :=
  ["日経平均", "topix", "sp500", "指数", "先物", "オプション"]

/-- The type-inference branch chain of `normalizeItem` (the body of
`if(!type){ ... }`), applied to the lowercased concatenated text. -/
def inferredType (cat : String) (t : String) : String :=
  if kwTest earningsKws t then "earnings"
  else if kwTest disclosureKws t then "disclosure"
  else if kwTest fxKws t then "fx"
  else if kwTest macroKws t then "macro"
  else if kwTest equityIndexKws t then "equityIndex"
  else if cat = "company" then "companyNews" else "marketNews"

/-- Modelled from the spec: the classifier as an explicit ordered
keyword-rule table, evaluated top to bottom, first match wins. -/
def classifierRules : List (List String × String) :=
  [(earningsKws, "earnings"),
   (disclosureKws, "disclosure"),
   (fxKws, "fx"),
   (macroKws, "macro"),
   (equityIndexKws, "equityIndex")]

/-- Modelled from the spec: first rule of the table whose keyword set
matches the text. -/
def firstMatchRule : List (List String × String) → String → Option String
  | [], _ => none
  | (kws, label) :: rest, t =>
    if kwTest kws t then some label else firstMatchRule rest t

/-- Modelled from the spec: ordered rule table with the documented
no-match fallback. -/
def inferTypeSpec (cat : String) (t : String) : String :=
  (firstMatchRule classifierRules t).getD
    (if cat = "company" then "companyNews" else "marketNews")

/-- Category normalization of `normalizeItem`:
`['market','company','sns'].includes(x.category) ? x.category : 'market'`
(`includes` uses strict equality, so non-string values never match). -/
def rawCat (x : RawItem) : String :=
  match x.category with
  | JSVal.str s => if ["market", "company", "sns"].contains s then s else "market"
  | _ => "market"

/-- `(x.title || '(タイトル不明)').toString()`. -/
def rawTitleStr (x : RawItem) : String :=
  (if x.title.truthy then x.title else JSVal.str "(タイトル不明)").jsToString

/-- `(x.summary || '').toString()`. -/
def rawSummaryStr (x : RawItem) : String :=
  (if x.summary.truthy then x.summary else JSVal.str "").jsToString

/-- `(x.source || '').toString()`. -/
def rawSourceStr (x : RawItem) : String :=
  (if x.source.truthy then x.source else JSVal.str "").jsToString

/-- `Array.isArray(x.tags) ? x.tags.slice(0,8) : []`. -/
def rawTagsL (x : RawItem) : List String :=
  match x.tags with | some l => l.take 8 | none => []

/-- `(x.type || '').toString()`. -/
def rawTypeStr (x : RawItem) : String :=
  (if x.type.truthy then x.type else JSVal.str "").jsToString

/-- The classification text of `normalizeItem`:
`(title + ' ' + summary + ' ' + tags.join(' ')).toLowerCase()`. -/
def classTextOf (x : RawItem) : String :=
  jsLower (rawTitleStr x ++ " " ++ rawSummaryStr x ++ " " ++
    String.intercalate " " (rawTagsL x))

/-- `normalizeItem(x)` of `assets/app.js`.  `fid` is the identifier
produced by `cryptoRandomId()` for the case where the raw record has no
truthy `id`. -/
def normalizeItem (x : RawItem) (fid : String) : Item :=
  let cat := rawCat x
  let type1 :=
    if rawTypeStr x = "" then inferredType cat (classTextOf x) else rawTypeStr x
  { id := match x.id with | some s => if s = "" then fid else s | none => fid
    category := cat
    title := rawTitleStr x
    summary := rawSummaryStr x
    source := rawSourceStr x
    url := x.url
    publishedAt := x.publishedAtParsed
    tags := rawTagsL x
    locale := match x.locale with | some s => if s = "" then "ja" else s | none => "ja"
    verified := x.verified != JSVal.bool false
    thumbnail := x.thumbnail.getD ""
    type := type1
    tickers := x.tickers.getD []
    issuer := if cat = "company" then "withIssuer" else "noIssuer" }

/-- URL dedup key: `(it.url || '').trim().replace(/[#?].*$/, '')`. -/
def urlKeyOf (u : String) : String := stripQF (jsTrim u)

/-- Title dedup key:
`(title || '').trim().toLowerCase().replace(/\s+/g, ' ')`. -/
def titleKeyOf (s : String) : String := squashWs (jsLower (jsTrim s))

/-- Title-collision test of `dedupeItems`: some already-kept item has the
same non-empty title key. -/
def titleHit (keep : List Item) (titleKey : String) : Bool :=
  keep.any (fun k =>
    let t := titleKeyOf k.title
    t != "" && titleKey != "" && t == titleKey)

/-- Loop of `dedupeItems`: `seen` is the set of URL keys of kept items,
`keep` the kept items in order. -/
def dedupeGo (seen : List String) (keep : List Item) : List Item → List Item
  | [] => keep
  | it :: rest =>
    let keyUrl := urlKeyOf it.url
    let titleKey := titleKeyOf it.title
    let urlHit := keyUrl != "" && seen.contains keyUrl
    if urlHit || titleHit keep titleKey then dedupeGo seen keep rest
    else dedupeGo (if keyUrl != "" then keyUrl :: seen else seen) (keep ++ [it]) rest

/-- `dedupeItems(arr)` of `assets/app.js`. -/
def dedupeItems (arr : List Item) : List Item := dedupeGo [] [] arr

/-- The query state read by `applyFilter` (fields of the global `state`). -/
structure QueryState where
  filter : String
  query : String
  sort : String
  type : String
  issuer : String
  dedupe : Bool
  onlyWithin24h : Bool
deriving DecidableEq, Repr

/-- Sort key of the date comparators: `(x.publishedAt?.getTime() || 0)` —
a null date is keyed as epoch `0`. -/
def dateKey (x : Item) : Int := x.publishedAt.getD 0

/-- Comparator-as-order for `date_asc`: `a` may precede `b` when the JS
comparator `keyA - keyB` is `≤ 0`. -/
def leDateAsc (a b : Item) : Bool := dateKey a ≤ dateKey b

/-- Comparator-as-order for `date_desc` (and the `switch` default). -/
def leDateDesc (a b : Item) : Bool := dateKey b ≤ dateKey a

/-- Comparator-as-order for `title_asc`; `localeCompare` is modelled by
code-point string comparison. -/
def leTitleAsc (a b : Item) : Bool := compare a.title b.title ≠ Ordering.gt

/-- Comparator-as-order for `title_desc`. -/
def leTitleDesc (a b : Item) : Bool := compare b.title a.title ≠ Ordering.gt

/-- The sort stage of `applyFilter`: a stable sort under the comparator
selected by `state.sort`, any unrecognized value taking the `date_desc`
default branch. -/
def sortStage (sortVal : String) (l : List Item) : List Item :=
  if sortVal = "date_asc" then l.mergeSort leDateAsc
  else if sortVal = "title_asc" then l.mergeSort leTitleAsc
  else if sortVal = "title_desc" then l.mergeSort leTitleDesc
  else l.mergeSort leDateDesc

/-- The 24-hour recency predicate of `applyFilter` step 1:
`x.publishedAt && now - t <= 24h && now - t >= 0`. -/
def inWindow24h (now : Int) (x : Item) : Bool :=
  match x.publishedAt with
  | some t => decide (now - t ≤ 86400000) && decide (0 ≤ now - t)
  | none => false

/-- The free-text search predicate (query `q` already lowercased). -/
def searchHit (q : String) (x : Item) : Bool :=
  strIncludes (jsLower x.title) q ||
  strIncludes (jsLower x.summary) q ||
  strIncludes (jsLower x.source) q ||
  x.tags.any (fun t => strIncludes (jsLower t) q) ||
  x.tickers.any (fun t => strIncludes (jsLower t) q)

/-- `applyFilter(items)` of `assets/app.js` (second revision, with the
24-hour toggle), with the wall clock passed explicitly. -/
def applyFilter (st : QueryState) (now : Int) (items : List Item) : List Item :=
  let out1 := if st.onlyWithin24h then items.filter (inWindow24h now) else items
  let out2 := if st.filter ≠ "all" then out1.filter (fun x => x.category == st.filter) else out1
  let out3 := if st.type ≠ "all" then out2.filter (fun x => x.type == st.type) else out2
  let out4 :=
    if st.issuer ≠ "all" then
      out3.filter (fun x => (if x.issuer = "" then "noIssuer" else x.issuer) == st.issuer)
    else out3
  let out5 := if st.query ≠ "" then out4.filter (searchHit (jsLower st.query)) else out4
  let out6 := if st.dedupe then dedupeItems out5 else out5
  sortStage st.sort out6

/-- Urgency keywords of `estimateImportance`. -/
def urgencyKws : List String :=
  ["警戒", "急落", "緊急", "利下げ", "利上げ", "サプライズ", "速報",
   "決算", "下方修正", "上方修正", "通期"]

/-- `score += 1` when `item.category === 'market'`. -/
def bonusMarket (x : Item) : Int := if x.category = "market" then 1 else 0

/-- `score += 2` when `category === 'company'` and the type is `earnings`
or `disclosure`. -/
def bonusCompanyDisc (x : Item) : Int :=
  if x.category = "company" ∧ (x.type = "earnings" ∨ x.type = "disclosure") then 2 else 0

/-- `score += 2` when the type is `macro`, `fx` or `equityIndex`. -/
def bonusMacro (x : Item) : Int :=
  if x.type = "macro" ∨ x.type = "fx" ∨ x.type = "equityIndex" then 2 else 0

/-- `score += 1` when the type is `earnings` or `disclosure`. -/
def bonusEarnDisc (x : Item) : Int :=
  if x.type = "earnings" ∨ x.type = "disclosure" then 1 else 0

/-- `score += 1` when `tickers` is a non-empty array. -/
def bonusTickers (x : Item) : Int := if x.tickers ≠ [] then 1 else 0

/-- `score += 1` when `item.publishedAt && now - t <= 24h` — note the
source has no `now - t >= 0` lower bound here. -/
def bonusFresh (now : Int) (x : Item) : Int :=
  match x.publishedAt with
  | some t => if now - t ≤ 86400000 then 1 else 0
  | none => 0

/-- The urgency-keyword text: `tags.join(' ').toLowerCase() + ' ' +
title.toLowerCase()`. -/
def tagText (x : Item) : String :=
  jsLower (String.intercalate " " x.tags) ++ " " ++ jsLower x.title

/-- `score += 1` when the urgency regex matches the tag/title text. -/
def bonusUrgency (x : Item) : Int :=
  if kwTest urgencyKws (tagText x) then 1 else 0

/-- `estimateImportance(item)` of `assets/app.js`, the wall clock passed
explicitly: the running sum of the bonus terms in source order, clamped to
`[1, 5]` by `Math.max(1, Math.min(5, score))`. -/
def estimateImportance (now : Int) (x : Item) : Int :=
  max 1 (min 5 (1 + bonusMarket x + bonusCompanyDisc x + bonusMacro x +
    bonusEarnDisc x + bonusTickers x + bonusFresh now x + bonusUrgency x))

/-- Persisted record as seen by the store-merge scripts: `id` and `url`
drive the merge; `rest` stands for the remaining payload fields, copied
unchanged by the object spread. -/
structure SItem where
  id : String
  url : String
  rest : String
deriving DecidableEq, Repr

/-- URL universe of the persisted collection:
`new Set(existing.map(x => (x && x.url) || ''))`. -/
def urlsOf (items : List SItem) : List String := items.map (fun x => x.url)

/-- Decimal digits to a number (accumulator form of repeated
`parseInt`-style evaluation). -/
def digitsToNat (acc : Nat) : List Char → Nat
  | [] => acc
  | c :: cs => digitsToNat (acc * 10 + (c.toNat - 48)) cs

/-- Match of `^<pfx>-(\d+)$` against an id, yielding the parsed number. -/
def parsePrefixNum (pfx id : String) : Option Nat :=
  let p := (pfx ++ "-").data
  if p.isPrefixOf id.data then
    let rest := id.data.drop p.length
    if rest ≠ [] ∧ rest.all (fun c => c.isDigit) then some (digitsToNat 0 rest)
    else none
  else none

/-- `calcNextIdStart(items, prefix)`: 1 + the maximum numeric suffix of
ids of the form `prefix-N` in the persisted collection. -/
def calcNextIdStart (items : List SItem) (pfx : String) : Nat :=
  (items.foldl
    (fun mx it =>
      match parsePrefixNum pfx it.id with
      | some n => Nat.max mx n
      | none => mx) 0) + 1

/-- The append loop of the merge: skip a new item whose url is empty or
already present, otherwise assign `pfx-<counter>` and keep it. -/
def mergeGo (existingUrls : List String) (pfx : String) : Nat → List SItem → List SItem
  | _, [] => []
  | c, n :: rest =>
    if n.url = "" ∨ existingUrls.contains n.url then mergeGo existingUrls pfx c rest
    else { n with id := pfx ++ "-" ++ natStr c } :: mergeGo existingUrls pfx (c + 1) rest

/-- The store merge of the ingestion scripts (`main` of
`scripts/news/fetch-press.ts` and of the TDnet script): returns the new
persisted collection and whether the store file was rewritten (`false`
exactly when zero items were appendable, in which case the function
returns before writing). -/
def mergeStore (pfx : String) (existing batch : List SItem) : List SItem × Bool :=
  let toAppend := mergeGo (urlsOf existing) pfx (calcNextIdStart existing pfx) batch
  if toAppend = [] then (existing, false) else (existing ++ toAppend, true)

/-- Neutral baseline item used by concrete witnesses. -/
def sampleItem : Item :=
  { id := "w1", category := "market", title := "Alpha News", summary := "", source := "",
    url := "http://e.com/a", publishedAt := none, tags := [], locale := "ja",
    verified := true, thumbnail := "", type := "marketNews", tickers := [],
    issuer := "noIssuer" }

/-- C7: for every item with `category = company` and `type` in
`{earnings, disclosure}`, the +2 company bonus and the separate +1
earnings/disclosure bonus both apply, so together they contribute exactly
+3 to the raw score before clamping. -/
theorem c7_company_type_double_count (now : Int) (x : Item)
    (hc : x.category = "company")
    (ht : x.type = "earnings" ∨ x.type = "disclosure") :
    bonusCompanyDisc x = 2 ∧ bonusEarnDisc x = 1 ∧
    estimateImportance now x =
      max 1 (min 5 ((1 + bonusMarket x + bonusMacro x + bonusTickers x +
        bonusFresh now x + bonusUrgency x) + 3)) := by
  have h2 : bonusCompanyDisc x = 2 := by simp [bonusCompanyDisc, hc, ht]
  have h1 : bonusEarnDisc x = 1 := by simp [bonusEarnDisc, ht]
  refine ⟨h2, h1, ?_⟩
  unfold estimateImportance
  rw [h2, h1]
  have harith :
      1 + bonusMarket x + 2 + bonusMacro x + 1 + bonusTickers x +
        bonusFresh now x + bonusUrgency x =
      (1 + bonusMarket x + bonusMacro x + bonusTickers x +
        bonusFresh now x + bonusUrgency x) + 3 := by ring
  rw [harith]

/-- Witness for C7 at a concrete company earnings item. -/
theorem c7_company_type_double_count_witness :
    bonusCompanyDisc { sampleItem with category := "company", type := "earnings" } = 2 ∧
    bonusEarnDisc { sampleItem with category := "company", type := "earnings" } = 1 ∧
    estimateImportance 0 { sampleItem with category := "company", type := "earnings" } =
      max 1 (min 5 ((1 +
        bonusMarket { sampleItem with category := "company", type := "earnings" } +
        bonusMacro { sampleItem with category := "company", type := "earnings" } +
        bonusTickers { sampleItem with category := "company", type := "earnings" } +
        bonusFresh 0 { sampleItem with category := "company", type := "earnings" } +
        bonusUrgency { sampleItem with category := "company", type := "earnings" }) + 3)) :=
  c7_company_type_double_count 0
    { sampleItem with category := "company", type := "earnings" }
    rfl (Or.inl rfl)

/-- Future-dated item used to exhibit the missing lower bound of the
freshness check (published one hour after the evaluation time `0`). -/
def futureItem : Item :=
  { sampleItem with
    category := "sns"
    type := "zz"
    title := "z"
    publishedAt := some 3600000 }

/-- C8 counterexample: at `now = 0`, `futureItem` is published in the
future (`now - t = -3600000 < 0`), so by the claim the freshness bonus must
not apply and the score would be 1; the code applies the bonus and yields
2, because the source checks only `now - t <= 24h` with no lower bound. -/
theorem c8_freshness_counterexample :
    estimateImportance 0 futureItem = 2 ∧ bonusFresh 0 futureItem = 1 ∧
    ¬ (0 ≤ (0 : Int) - 3600000) := by
  refine ⟨by decide, by decide, by decide⟩

/-- C8 amended: `estimateImportance` adds the freshness bonus of +1
exactly when `publishedAt` is non-null and `now - publishedAt ≤ 24` hours —
there is no lower bound, so an item dated more than 24 hours in the past
gets no bonus but a future-dated item does. -/
theorem c8_freshness_bonus_no_lower_bound (now : Int) (x : Item) :
    (x.publishedAt = none →
      estimateImportance now x =
        max 1 (min 5 (1 + bonusMarket x + bonusCompanyDisc x + bonusMacro x +
          bonusEarnDisc x + bonusTickers x + bonusUrgency x))) ∧
    (∀ t : Int, x.publishedAt = some t →
      ((now - t ≤ 86400000 →
        estimateImportance now x =
          max 1 (min 5 ((1 + bonusMarket x + bonusCompanyDisc x + bonusMacro x +
            bonusEarnDisc x + bonusTickers x + bonusUrgency x) + 1))) ∧
       (86400000 < now - t →
        estimateImportance now x =
          max 1 (min 5 (1 + bonusMarket x + bonusCompanyDisc x + bonusMacro x +
            bonusEarnDisc x + bonusTickers x + bonusUrgency x))))) := by
  constructor
  · intro hnone
    unfold estimateImportance
    have hf : bonusFresh now x = 0 := by simp [bonusFresh, hnone]
    rw [hf]
    have harith :
        1 + bonusMarket x + bonusCompanyDisc x + bonusMacro x +
          bonusEarnDisc x + bonusTickers x + 0 + bonusUrgency x =
        1 + bonusMarket x + bonusCompanyDisc x + bonusMacro x +
          bonusEarnDisc x + bonusTickers x + bonusUrgency x := by ring
    rw [harith]
  · intro t hsome
    constructor
    · intro hle
      unfold estimateImportance
      have hf : bonusFresh now x = 1 := by simp [bonusFresh, hsome, hle]
      rw [hf]
      have harith :
          1 + bonusMarket x + bonusCompanyDisc x + bonusMacro x +
            bonusEarnDisc x + bonusTickers x + 1 + bonusUrgency x =
          (1 + bonusMarket x + bonusCompanyDisc x + bonusMacro x +
            bonusEarnDisc x + bonusTickers x + bonusUrgency x) + 1 := by ring
      rw [harith]
    · intro hgt
      unfold estimateImportance
      have hf : bonusFresh now x = 0 := by
        simp only [bonusFresh, hsome]
        rw [if_neg (by omega)]
      rw [hf]
      have harith :
          1 + bonusMarket x + bonusCompanyDisc x + bonusMacro x +
            bonusEarnDisc x + bonusTickers x + 0 + bonusUrgency x =
          1 + bonusMarket x + bonusCompanyDisc x + bonusMacro x +
            bonusEarnDisc x + bonusTickers x + bonusUrgency x := by ring
      rw [harith]

/-- Witness for the amended C8 at the concrete future-dated item. -/
theorem c8_freshness_bonus_no_lower_bound_witness :
    futureItem.publishedAt = some 3600000 ∧ ((0 : Int) - 3600000 ≤ 86400000) ∧
    estimateImportance 0 futureItem =
      max 1 (min 5 ((1 + bonusMarket futureItem + bonusCompanyDisc futureItem +
        bonusMacro futureItem + bonusEarnDisc futureItem + bonusTickers futureItem +
        bonusUrgency futureItem) + 1)) :=
  ⟨rfl, by decide,
    ((c8_freshness_bonus_no_lower_bound 0 futureItem).2 3600000 rfl).1 (by decide)⟩

/-- Helper for C1: when every batch item has an empty url or a url already
in the universe, the merge loop appends nothing. -/
theorem mergeGo_eq_nil (urls : List String) (pfx : String) :
    ∀ (batch : List SItem) (c : Nat),
      (∀ n ∈ batch, n.url = "" ∨ urls.contains n.url = true) →
      mergeGo urls pfx c batch = [] := by
  intro batch
  induction batch with
  | nil => intro c _; simp [mergeGo]
  | cons m rest ih =>
    intro c hall
    have hm := hall m (List.mem_cons_self m rest)
    have hrest : ∀ n ∈ rest, n.url = "" ∨ urls.contains n.url = true :=
      fun n hn => hall n (List.mem_cons_of_mem m hn)
    simp only [mergeGo]
    rw [if_pos hm]
    exact ih c hrest

/-- Helper for C1: a batch item that passes the skip test contributes its
url to the appended list. -/
theorem url_mem_mergeGo (urls : List String) (pfx : String) :
    ∀ (batch : List SItem) (c : Nat) (n : SItem), n ∈ batch →
      ¬ (n.url = "" ∨ urls.contains n.url = true) →
      n.url ∈ (mergeGo urls pfx c batch).map (fun x => x.url) := by
  intro batch
  induction batch with
  | nil => intro c n h; cases h
  | cons m rest ih =>
    intro c n hmem hcond
    by_cases hm : m.url = "" ∨ urls.contains m.url = true
    · simp only [mergeGo]
      rw [if_pos hm]
      rcases List.mem_cons.mp hmem with rfl | hr
      · exact absurd hm hcond
      · exact ih c n hr hcond
    · simp only [mergeGo]
      rw [if_neg hm]
      rcases List.mem_cons.mp hmem with rfl | hr
      · exact List.mem_cons_self _ _
      · exact List.mem_cons_of_mem _ (ih (c + 1) n hr hcond)

/-- Helper for C1: after a merge, every batch item has an empty url or a
url among the result's urls. -/
theorem batch_covered_after_merge (pfx : String) (existing batch : List SItem) :
    ∀ n ∈ batch, n.url = "" ∨
      (urlsOf (mergeStore pfx existing batch).1).contains n.url = true := by
  intro n hn
  by_cases hne : n.url = ""
  · exact Or.inl hne
  refine Or.inr ?_
  have hmem : ∀ l : List SItem, n.url ∈ (urlsOf l) → (urlsOf l).contains n.url = true := by
    intro l h
    simpa [List.contains, List.elem_eq_mem] using h
  by_cases hc : (urlsOf existing).contains n.url = true
  · have hcm : n.url ∈ urlsOf existing := by
      simpa [List.contains, List.elem_eq_mem] using hc
    simp only [mergeStore]
    split
    · exact hmem existing hcm
    · refine hmem _ ?_
      unfold urlsOf
      rw [List.map_append]
      exact List.mem_append_left _ hcm
  · have happ : n.url ∈ (mergeGo (urlsOf existing) pfx
        (calcNextIdStart existing pfx) batch).map (fun x => x.url) :=
      url_mem_mergeGo (urlsOf existing) pfx batch _ n hn (by tauto)
    have hne2 : mergeGo (urlsOf existing) pfx (calcNextIdStart existing pfx) batch ≠ [] := by
      intro h0
      rw [h0] at happ
      cases happ
    simp only [mergeStore]
    rw [if_neg hne2]
    refine hmem _ ?_
    unfold urlsOf
    rw [List.map_append]
    exact List.mem_append_right _ happ

/-- Helper for C1: a merge against a collection whose url universe already
covers the batch is a no-op with the written flag `false`. -/
theorem mergeStore_noop_of_covered (pfx : String) (cur batch : List SItem)
    (h : ∀ n ∈ batch, n.url = "" ∨ (urlsOf cur).contains n.url = true) :
    mergeStore pfx cur batch = (cur, false) := by
  have hnil := mergeGo_eq_nil (urlsOf cur) pfx batch (calcNextIdStart cur pfx) h
  simp [mergeStore, hnil]

/-- C1: the store merge is idempotent with respect to URL identity —
re-running the same batch against the post-merge collection appends
nothing: every item is skipped (its url is empty, hence skipped, or
already in the existing-URL set), the collection is unchanged and the
store file is not rewritten (written flag `false`). -/
theorem c1_merge_idempotent (pfx : String) (existing batch : List SItem) :
    mergeStore pfx (mergeStore pfx existing batch).1 batch =
      ((mergeStore pfx existing batch).1, false) :=
  mergeStore_noop_of_covered pfx (mergeStore pfx existing batch).1 batch
    (batch_covered_after_merge pfx existing batch)

/-- C10: an item whose trimmed url becomes empty after stripping the
query/fragment is never dropped by the URL check and never adds a key to
the seen-URL set (so it can never cause a later item to be dropped by
URL); it is dropped exactly when its normalized title is non-empty and
matches the normalized title of an already-kept item. -/
theorem c10_empty_url_key (seen : List String) (keep rest : List Item) (it : Item)
    (h : urlKeyOf it.url = "") :
    dedupeGo seen keep (it :: rest) =
      if titleHit keep (titleKeyOf it.title) then dedupeGo seen keep rest
      else dedupeGo seen (keep ++ [it]) rest := by
  by_cases hth : titleHit keep (titleKeyOf it.title) = true
  · rw [if_pos hth]
    simp [dedupeGo, h, hth]
  · rw [if_neg hth]
    simp [dedupeGo, h, hth]

/-- Witness for C10 at a concrete query-only url. -/
theorem c10_empty_url_key_witness :
    urlKeyOf ({ sampleItem with url := "?only=query" } : Item).url = "" ∧
    dedupeGo [] [] [{ sampleItem with url := "?only=query" }] =
      (if titleHit [] (titleKeyOf ({ sampleItem with url := "?only=query" } : Item).title)
       then dedupeGo [] [] []
       else dedupeGo [] ([] ++ [{ sampleItem with url := "?only=query" }]) []) :=
  ⟨by decide, c10_empty_url_key [] [] [] { sampleItem with url := "?only=query" } (by decide)⟩

/-- Helper for C2: stripping at the first `?`/`#` ignores everything from
an appended `?` on. -/
theorem stripQFL_append_marker (l r : List Char) :
    stripQFL (l ++ '?' :: r) = stripQFL l := by
  induction l with
  | nil => simp [stripQFL]
  | cons c cs ih =>
    by_cases hc : c = '?' ∨ c = '#'
    · simp [stripQFL, hc]
    · simp [stripQFL, hc, ih]

/-- Helper for C2: `dropWhile` never consumes past an element on which the
predicate is false. -/
theorem dropWhile_keeps_marker (p : Char → Bool) (y : Char) (hy : p y = false)
    (xs ys : List Char) : ∃ s, (xs ++ y :: ys).dropWhile p = s ++ y :: ys := by
  induction xs with
  | nil => exact ⟨[], by simp [List.dropWhile_cons, hy]⟩
  | cons x xs ih =>
    by_cases hx : p x = true
    · obtain ⟨s, hs⟩ := ih
      exact ⟨s, by simp [List.dropWhile_cons, hx, hs]⟩
    · exact ⟨x :: xs, by simp [List.dropWhile_cons, hx]⟩

/-- Helper for C2: a non-empty trim-invariant character list starts with a
non-whitespace character. -/
theorem trimL_head_not_ws {c : Char} {t : List Char} (h : trimL (c :: t) = c :: t) :
    jsWs c = false := by
  by_contra hc
  have hws : jsWs c = true := by revert hc; cases jsWs c <;> simp
  have h1 : trimL (c :: t) = ((t.dropWhile jsWs).reverse.dropWhile jsWs).reverse := by
    simp [trimL, List.dropWhile_cons, hws]
  have l1 : (((t.dropWhile jsWs).reverse.dropWhile jsWs).reverse).length ≤
      ((t.dropWhile jsWs).reverse).length := by
    rw [List.length_reverse]
    exact List.Sublist.length_le (List.dropWhile_sublist _)
  have l2 : ((t.dropWhile jsWs).reverse).length ≤ t.length := by
    rw [List.length_reverse]
    exact List.Sublist.length_le (List.dropWhile_sublist _)
  have := h1 ▸ h
  have hlen := congrArg List.length this
  simp only [List.length_cons] at hlen
  omega

/-- Helper for C2: appending `'?' :: r` to a non-empty trim-invariant list
trims to the same list followed by `'?'` and a residue. -/
theorem trimL_append_marker (l r : List Char) (hl : trimL l = l) (hne : l ≠ []) :
    ∃ r2, trimL (l ++ '?' :: r) = l ++ '?' :: r2 := by
  obtain ⟨c, t, rfl⟩ : ∃ c t, l = c :: t := by
    cases l with
    | nil => exact absurd rfl hne
    | cons c t => exact ⟨c, t, rfl⟩
  have hcw : jsWs c = false := trimL_head_not_ws hl
  have h1 : (c :: t ++ '?' :: r).dropWhile jsWs = c :: t ++ '?' :: r := by
    simp [List.dropWhile_cons, hcw]
  have h2 : (c :: t ++ '?' :: r).reverse = r.reverse ++ '?' :: (c :: t).reverse := by
    simp
  obtain ⟨s, hs⟩ := dropWhile_keeps_marker jsWs '?' (by decide) r.reverse (c :: t).reverse
  refine ⟨s.reverse, ?_⟩
  unfold trimL
  rw [h1, h2, hs]
  simp

/-- Helper for C2: appending a query string to a trim-invariant url with a
non-empty URL key leaves the URL key unchanged. -/
theorem urlKey_append_query (A q : String) (htrim : jsTrim A = A)
    (hkey : urlKeyOf A ≠ "") :
    urlKeyOf (A ++ "?" ++ q) = urlKeyOf A := by
  have hdata : trimL A.data = A.data := congrArg String.data htrim
  have hne : A.data ≠ [] := by
    intro h0
    apply hkey
    have hA : A = "" := String.ext h0
    rw [hA]
    rfl
  obtain ⟨r2, hr2⟩ := trimL_append_marker A.data q.data hdata hne
  have hdd : (A ++ "?" ++ q).data = A.data ++ '?' :: q.data := by
    simp [String.data_append]
  show stripQF (jsTrim (A ++ "?" ++ q)) = urlKeyOf A
  unfold urlKeyOf stripQF jsTrim
  rw [hdd, hr2, stripQFL_append_marker, hdata]

/-- C2: for `[A, B, C]` where B's url is A's url with a trailing query
string appended and C's title equals A's title (A's url carrying no
surrounding whitespace, with a non-empty URL key, and a non-empty title
key), `dedupeItems` returns exactly `[A]`: B is dropped on the URL key
already seen, C on the title collision, and A is kept as the first
occurrence. -/
theorem c2_dedup_stability (A B C : Item) (q : String)
    (htrim : jsTrim A.url = A.url)
    (hkey : urlKeyOf A.url ≠ "")
    (htitle : titleKeyOf A.title ≠ "")
    (hB : B.url = A.url ++ "?" ++ q)
    (hC : C.title = A.title) :
    dedupeItems [A, B, C] = [A] := by
  have hkeyB : urlKeyOf B.url = urlKeyOf A.url := by
    rw [hB]
    exact urlKey_append_query A.url q htrim hkey
  have stepA : dedupeGo [] [] [A, B, C] = dedupeGo [urlKeyOf A.url] [A] [B, C] := by
    simp [dedupeGo, titleHit, hkey]
  have stepB : dedupeGo [urlKeyOf A.url] [A] [B, C] =
      dedupeGo [urlKeyOf A.url] [A] [C] := by
    simp [dedupeGo, hkeyB, hkey]
  have stepC : dedupeGo [urlKeyOf A.url] [A] [C] =
      dedupeGo [urlKeyOf A.url] [A] [] := by
    simp [dedupeGo, titleHit, hC, htitle]
  unfold dedupeItems
  rw [stepA, stepB, stepC]
  rfl

/-- Witness for C2 at concrete items. -/
theorem c2_dedup_stability_witness :
    jsTrim (sampleItem : Item).url = sampleItem.url ∧
    urlKeyOf (sampleItem : Item).url ≠ "" ∧
    titleKeyOf (sampleItem : Item).title ≠ "" ∧
    ({ sampleItem with id := "w2", url := "http://e.com/a?x=2" } : Item).url =
      (sampleItem : Item).url ++ "?" ++ "x=2" ∧
    ({ sampleItem with id := "w3", url := "http://e.com/c" } : Item).title =
      (sampleItem : Item).title ∧
    dedupeItems [sampleItem,
      { sampleItem with id := "w2", url := "http://e.com/a?x=2" },
      { sampleItem with id := "w3", url := "http://e.com/c" }] = [sampleItem] :=
  ⟨by decide, by decide, by decide, by decide, rfl,
    c2_dedup_stability sampleItem
      { sampleItem with id := "w2", url := "http://e.com/a?x=2" }
      { sampleItem with id := "w3", url := "http://e.com/c" }
      "x=2" (by decide) (by decide) (by decide) (by decide) rfl⟩

/-- Helper for C6: the branch chain of the source equals the ordered
rule-table evaluation of the spec. -/
theorem inferredType_eq_spec (cat t : String) :
    inferredType cat t = inferTypeSpec cat t := by
  unfold inferredType inferTypeSpec classifierRules
  by_cases h1 : kwTest earningsKws t = true <;>
    by_cases h2 : kwTest disclosureKws t = true <;>
      by_cases h3 : kwTest fxKws t = true <;>
        by_cases h4 : kwTest macroKws t = true <;>
          by_cases h5 : kwTest equityIndexKws t = true <;>
            simp [firstMatchRule, h1, h2, h3, h4, h5]

/-- Concrete raw record used by the C6 witness: an explicit earnings text
that also matches later rules. -/
def rawEarnings : RawItem :=
  { category := JSVal.str "market", title := JSVal.str "決算と為替サプライズ",
    summary := JSVal.undef, source := JSVal.undef, url := "u",
    publishedAtParsed := none, tags := none, locale := none,
    verified := JSVal.undef, thumbnail := none, type := JSVal.undef,
    tickers := none, id := some "id1" }

/-- C6: when the raw `type` stringifies to empty, the classifier assigns
`type` by evaluating the ordered keyword-rule table (earnings, disclosure,
fx, macro, equityIndex) over the lowercased concatenation of title,
summary and tags, first match winning — in particular any earnings match
yields `earnings` regardless of later rules — with fallback `companyNews`
for `category = company` and `marketNews` otherwise; a non-empty raw
`type` is kept unchanged. -/
theorem c6_classifier_rule_order (x : RawItem) (fid : String) :
    (rawTypeStr x = "" →
      (normalizeItem x fid).type = inferTypeSpec (rawCat x) (classTextOf x) ∧
      (kwTest earningsKws (classTextOf x) = true →
        (normalizeItem x fid).type = "earnings") ∧
      (firstMatchRule classifierRules (classTextOf x) = none →
        (normalizeItem x fid).type =
          (if rawCat x = "company" then "companyNews" else "marketNews"))) ∧
    (rawTypeStr x ≠ "" → (normalizeItem x fid).type = rawTypeStr x) := by
  constructor
  · intro h0
    have htype : (normalizeItem x fid).type = inferredType (rawCat x) (classTextOf x) := by
      simp [normalizeItem, h0]
    refine ⟨htype.trans (inferredType_eq_spec _ _), ?_, ?_⟩
    · intro hkw
      rw [htype]
      simp [inferredType, hkw]
    · intro hnone
      rw [htype, inferredType_eq_spec _ _]
      simp [inferTypeSpec, hnone]
  · intro h0
    simp [normalizeItem, h0]

/-- Witness for C6 at the concrete earnings record. -/
theorem c6_classifier_rule_order_witness :
    rawTypeStr rawEarnings = "" ∧
    (normalizeItem rawEarnings "f").type =
      inferTypeSpec (rawCat rawEarnings) (classTextOf rawEarnings) ∧
    kwTest earningsKws (classTextOf rawEarnings) = true ∧
    kwTest fxKws (classTextOf rawEarnings) = true ∧
    (normalizeItem rawEarnings "f").type = "earnings" :=
  ⟨by decide,
   ((c6_classifier_rule_order rawEarnings "f").1 (by decide)).1,
   by decide,
   by decide,
   ((c6_classifier_rule_order rawEarnings "f").1 (by decide)).2.1 (by decide)⟩

/-- Helper for C9: the fueled decimal printer never yields an empty digit
list. -/
theorem natDigitsGo_ne_nil (fuel n : Nat) : natDigitsGo (fuel + 1) n ≠ [] := by
  simp only [natDigitsGo]
  split <;> simp

/-- Helper for C9: decimal representations are never empty. -/
theorem natStr_ne_empty (n : Nat) : natStr n ≠ "" := by
  intro h
  exact natDigitsGo_ne_nil n n (by simpa [natDigitsL] using congrArg String.data h)

/-- Helper for C9: integer representations are never empty. -/
theorem intStr_ne_empty (n : Int) : intStr n ≠ "" := by
  unfold intStr
  split
  · intro h
    have hdata := congrArg String.data h
    simp [String.data_append] at hdata
  · exact natStr_ne_empty _

/-- Helper for C9: a falsy value never stringifies to the unknown-title
placeholder. -/
theorem jsToString_falsy_ne_placeholder (v : JSVal) (hv : v.truthy = false) :
    v.jsToString ≠ "(タイトル不明)" := by
  cases v with
  | undef => decide
  | null => decide
  | bool b =>
    have hb : b = false := by simpa [JSVal.truthy] using hv
    subst hb
    decide
  | num n =>
    have hn : n = 0 := by simpa [JSVal.truthy] using hv
    subst hn
    decide
  | str s =>
    have hs : s = "" := by simpa [JSVal.truthy] using hv
    subst hs
    decide

/-- Helper for C9: a truthy value never stringifies to the empty string. -/
theorem jsToString_truthy_ne_empty (v : JSVal) (hv : v.truthy = true) :
    v.jsToString ≠ "" := by
  cases v with
  | undef => simp [JSVal.truthy] at hv
  | null => simp [JSVal.truthy] at hv
  | bool b =>
    have hb : b = true := by simpa [JSVal.truthy] using hv
    subst hb
    decide
  | num n => exact intStr_ne_empty n
  | str s => simpa [JSVal.truthy, JSVal.jsToString] using hv

/-- Concrete raw record used against C9: the raw title is the number `0`,
which is present and stringifies to the non-empty "0", yet is falsy. -/
def rawZeroTitle : RawItem :=
  { category := JSVal.str "market", title := JSVal.num 0,
    summary := JSVal.undef, source := JSVal.undef, url := "u",
    publishedAtParsed := none, tags := none, locale := none,
    verified := JSVal.undef, thumbnail := none, type := JSVal.str "marketNews",
    tickers := none, id := some "id2" }

/-- C9 counterexample: with raw title `0` — present, stringifying to the
non-empty "0" — the claim demands the title be "0", but the code tests JS
truthiness and `0` is falsy, so the title is the placeholder; the claimed
"exactly when present and non-empty once stringified" biconditional fails. -/
theorem c9_title_counterexample :
    ¬ (((normalizeItem rawZeroTitle "f").title = rawZeroTitle.title.jsToString) ↔
        (rawZeroTitle.title ≠ JSVal.undef ∧ rawZeroTitle.title.jsToString ≠ "")) := by
  decide

/-- C9 amended: `normalizeItem` sets the title to the stringified raw
title exactly when the raw title is JS-truthy (for string-valued raw
titles this is "present and non-empty", but falsy non-string values such
as `0` or `false` also fall back); otherwise the fixed placeholder is
used, and the resulting title is always non-empty. -/
theorem c9_title_truthiness (x : RawItem) (fid : String) :
    ((normalizeItem x fid).title = x.title.jsToString ↔ x.title.truthy = true) ∧
    (normalizeItem x fid).title ≠ "" := by
  have htitle : (normalizeItem x fid).title = rawTitleStr x := rfl
  rw [htitle]
  unfold rawTitleStr
  by_cases ht : x.title.truthy = true
  · rw [if_pos ht]
    exact ⟨iff_of_true rfl ht, jsToString_truthy_ne_empty _ ht⟩
  · rw [if_neg ht]
    have hf : x.title.truthy = false := by
      revert ht
      cases x.title.truthy <;> simp
    constructor
    · constructor
      · intro heq
        exact absurd heq.symm (jsToString_falsy_ne_placeholder _ hf)
      · intro h
        exact absurd h ht
    · decide

/-- Witness for the amended C9 at the concrete zero-title record. -/
theorem c9_title_truthiness_witness :
    (((normalizeItem rawZeroTitle "f").title = rawZeroTitle.title.jsToString ↔
        rawZeroTitle.title.truthy = true) ∧
      (normalizeItem rawZeroTitle "f").title ≠ "") :=
  c9_title_truthiness rawZeroTitle "f"

/-- C3: with the 24h window active (and dedupe enabled), the recency
filter of step 1 runs before deduplication: an out-of-window item is
removed before any URL-key or title comparison, so removing it from the
collection never changes the query result — it can never knock out an
in-window item sharing its URL key or title. -/
theorem c3_recency_before_dedup (st : QueryState) (now : Int)
    (l1 l2 : List Item) (y : Item)
    (h24 : st.onlyWithin24h = true) (hdd : st.dedupe = true)
    (hy : inWindow24h now y = false) :
    applyFilter st now (l1 ++ y :: l2) = applyFilter st now (l1 ++ l2) := by
  have _ := hdd
  have hfilter : (l1 ++ y :: l2).filter (inWindow24h now) =
      (l1 ++ l2).filter (inWindow24h now) := by
    simp [List.filter_append, List.filter_cons, hy]
  simp only [applyFilter, h24, if_true, hfilter]

/-- In-window companion item of the C3 witness (published at time 10,
queried at time 20). -/
def inWindowItem : Item :=
  { sampleItem with
    id := "w5"
    url := "http://e.com/in"
    publishedAt := some 10 }

/-- Witness for C3: dropping a null-dated (hence out-of-window) item from
the collection leaves the result unchanged. -/
theorem c3_recency_before_dedup_witness :
    (⟨"all", "", "date_desc", "all", "all", true, true⟩ : QueryState).onlyWithin24h = true ∧
    (⟨"all", "", "date_desc", "all", "all", true, true⟩ : QueryState).dedupe = true ∧
    inWindow24h 20 sampleItem = false ∧
    applyFilter ⟨"all", "", "date_desc", "all", "all", true, true⟩ 20
        ([inWindowItem] ++ sampleItem :: []) =
      applyFilter ⟨"all", "", "date_desc", "all", "all", true, true⟩ 20
        ([inWindowItem] ++ []) :=
  ⟨rfl, rfl, by decide,
    c3_recency_before_dedup ⟨"all", "", "date_desc", "all", "all", true, true⟩ 20
      [inWindowItem] [] sampleItem rfl rfl (by decide)⟩

/-- Helper: the `date_desc` comparator-order is transitive. -/
theorem leDateDesc_trans (a b c : Item) (h1 : leDateDesc a b) (h2 : leDateDesc b c) :
    leDateDesc a c := by
  simp [leDateDesc] at *
  omega

/-- Helper: the `date_desc` comparator-order is total. -/
theorem leDateDesc_total (a b : Item) : leDateDesc a b || leDateDesc b a := by
  simp [leDateDesc]
  omega

/-- Helper: the `date_asc` comparator-order is transitive. -/
theorem leDateAsc_trans (a b c : Item) (h1 : leDateAsc a b) (h2 : leDateAsc b c) :
    leDateAsc a c := by
  simp [leDateAsc] at *
  omega

/-- Helper: the `date_asc` comparator-order is total. -/
theorem leDateAsc_total (a b : Item) : leDateAsc a b || leDateAsc b a := by
  simp [leDateAsc]
  omega

/-- Helper: the sort stage on `date_desc` is the stable sort under the
descending-date order. -/
theorem sortStage_date_desc (l : List Item) :
    sortStage "date_desc" l = l.mergeSort leDateDesc := by
  unfold sortStage
  rw [if_neg (by decide), if_neg (by decide), if_neg (by decide)]

/-- Helper: the sort stage on `date_asc` is the stable sort under the
ascending-date order. -/
theorem sortStage_date_asc (l : List Item) :
    sortStage "date_asc" l = l.mergeSort leDateAsc := by
  unfold sortStage
  rw [if_pos rfl]

/-- C4 amended: null dates are keyed as epoch 0 by `(getTime() || 0)`, so
under `date_desc` a null-dated item is never ahead of any item with a
positive (post-epoch) timestamp, and under `date_asc` a null-dated item is
never behind one; but an item dated at or before the epoch can share the
null side, so the original "never ahead of any non-null item" /
"at the very front" phrasing fails. -/
theorem c4_null_date_position (st : QueryState) (now : Int) (items : List Item) :
    (st.sort = "date_desc" →
      (applyFilter st now items).Pairwise
        (fun a b => a.publishedAt = none → dateKey b ≤ 0)) ∧
    (st.sort = "date_asc" →
      (applyFilter st now items).Pairwise
        (fun a b => b.publishedAt = none → dateKey a ≤ 0)) := by
  constructor
  · intro hs
    simp only [applyFilter, hs, sortStage_date_desc]
    refine List.Pairwise.imp ?_
      (List.sorted_mergeSort leDateDesc_trans leDateDesc_total _)
    intro a b hab hnone
    have h1 : dateKey b ≤ dateKey a := by simpa [leDateDesc] using hab
    have h2 : dateKey a = 0 := by simp [dateKey, hnone]
    omega
  · intro hs
    simp only [applyFilter, hs, sortStage_date_asc]
    refine List.Pairwise.imp ?_
      (List.sorted_mergeSort leDateAsc_trans leDateAsc_total _)
    intro a b hab hnone
    have h1 : dateKey a ≤ dateKey b := by simpa [leDateAsc] using hab
    have h2 : dateKey b = 0 := by simp [dateKey, hnone]
    omega

/-- Witness for the amended C4 on a concrete two-item collection. -/
theorem c4_null_date_position_witness :
    (applyFilter ⟨"all", "", "date_desc", "all", "all", false, false⟩ 0
        [sampleItem, inWindowItem]).Pairwise
      (fun a b => a.publishedAt = none → dateKey b ≤ 0) :=
  (c4_null_date_position ⟨"all", "", "date_desc", "all", "all", false, false⟩ 0
    [sampleItem, inWindowItem]).1 rfl

/-- Epoch-dated (non-null) companion item of the C4 counterexample. -/
def epochItem : Item :=
  { sampleItem with
    id := "w6"
    url := "http://e.com/e"
    publishedAt := some 0 }

/-- C4 counterexample: under `date_desc` the null-dated `sampleItem` and
the epoch-dated `epochItem` share the sort key 0, and the stable sort
keeps input order, so the null-dated item appears ahead of a non-null
item — contradicting "an item with publishedAt = null never appears ahead
of any item with a non-null publishedAt". -/
theorem c4_null_date_counterexample :
    applyFilter ⟨"all", "", "date_desc", "all", "all", false, false⟩ 0
        [sampleItem, epochItem] = [sampleItem, epochItem] ∧
    sampleItem.publishedAt = none ∧ epochItem.publishedAt = some 0 ∧
    sampleItem ≠ epochItem := by
  refine ⟨?_, rfl, rfl, by decide⟩
  have hpipe : applyFilter ⟨"all", "", "date_desc", "all", "all", false, false⟩ 0
      [sampleItem, epochItem] = sortStage "date_desc" [sampleItem, epochItem] := by
    simp [applyFilter]
  rw [hpipe, sortStage_date_desc]
  exact List.mergeSort_of_sorted (by decide)

/-- Helper: the sort stage of the empty view is empty for every sort
value. -/
theorem sortStage_nil (sv : String) : sortStage sv [] = [] := by
  unfold sortStage
  split
  · simp
  · split
    · simp
    · split <;> simp

/-- C5 counterexample: with the unrecognized filter value "bogus" the
category filter `x.category === state.filter` drops every normalized item
(none has category "bogus"), yielding the empty view — not the same
result as filter "all", which keeps the item.  So unrecognized filter
values do not fall back to "no filter". -/
theorem c5_unrecognized_filter_counterexample :
    applyFilter ⟨"bogus", "", "date_desc", "all", "all", false, false⟩ 0
        [sampleItem] = [] ∧
    applyFilter ⟨"all", "", "date_desc", "all", "all", false, false⟩ 0
        [sampleItem] = [sampleItem] ∧
    ("bogus" : String) ≠ "all" ∧ ("bogus" : String) ≠ "market" ∧
    ("bogus" : String) ≠ "company" ∧ ("bogus" : String) ≠ "sns" ∧
    sampleItem.category = "market" := by
  refine ⟨?_, ?_, by decide, by decide, by decide, by decide, rfl⟩
  · simp [applyFilter, sortStage_nil, dedupeItems, dedupeGo, sampleItem]
  · have hpipe : applyFilter ⟨"all", "", "date_desc", "all", "all", false, false⟩ 0
        [sampleItem] = sortStage "date_desc" [sampleItem] := by
      simp [applyFilter]
    rw [hpipe, sortStage_date_desc]
    exact List.mergeSort_of_sorted (by decide)

/-- C5 amended: `applyFilter` is a total function; every sort value other
than the three recognized non-default ones behaves exactly as the default
`date_desc`; an unrecognized filter value, however, does not fall back to
"no filter" — it acts as an exact-match category filter and produces the
empty view whenever no item carries that category (in particular on every
normalized collection). -/
theorem c5_fallback_behaviour (st : QueryState) (now : Int) (items : List Item) :
    (st.sort ≠ "date_asc" → st.sort ≠ "title_asc" → st.sort ≠ "title_desc" →
      applyFilter st now items =
        applyFilter { st with sort := "date_desc" } now items) ∧
    (st.filter ≠ "all" → (∀ x ∈ items, x.category ≠ st.filter) →
      applyFilter st now items = []) := by
  constructor
  · intro h1 h2 h3
    have hsort : sortStage st.sort = sortStage "date_desc" := by
      funext l
      unfold sortStage
      rw [if_neg h1, if_neg h2, if_neg h3,
        if_neg (by decide), if_neg (by decide), if_neg (by decide)]
    simp only [applyFilter, hsort]
  · intro hf hall
    have hnil : (List.filter (fun x => x.category == st.filter)
        (if st.onlyWithin24h = true then items.filter (inWindow24h now) else items)) = [] := by
      rw [List.filter_eq_nil_iff]
      intro a ha
      have hmem : a ∈ items := by
        by_cases h24 : st.onlyWithin24h = true
        · rw [if_pos h24] at ha
          exact List.mem_of_mem_filter ha
        · rw [if_neg h24] at ha
          exact ha
      simp [hall a hmem]
    simp only [applyFilter, if_pos hf, hnil]
    split <;> split <;> split <;> simp [dedupeItems, dedupeGo, sortStage_nil]

/-- Witness for the amended C5: an unrecognized sort value gives the
`date_desc` result, and an unrecognized filter value gives the empty
view. -/
theorem c5_fallback_behaviour_witness :
    (applyFilter ⟨"all", "", "weird_sort", "all", "all", false, false⟩ 0 [sampleItem] =
      applyFilter ⟨"all", "", "date_desc", "all", "all", false, false⟩ 0 [sampleItem]) ∧
    (applyFilter ⟨"bogus2", "", "date_desc", "all", "all", false, false⟩ 0 [sampleItem] = []) :=
  ⟨(c5_fallback_behaviour ⟨"all", "", "weird_sort", "all", "all", false, false⟩ 0
      [sampleItem]).1 (by decide) (by decide) (by decide),
   (c5_fallback_behaviour ⟨"bogus2", "", "date_desc", "all", "all", false, false⟩ 0
      [sampleItem]).2 (by decide)
      (by intro x hx; simp at hx; rw [hx]; decide)⟩
